import Mathlib

/-!
Shallow embedding of the dignity hook-dispatch engine
(`src/dignity/hooks/dispatch/{types,matchers,dispatcher,actions}.py` and
`src/dignity/state.py`) together with proofs of the specified properties.

Modelling conventions:
* Python `frozenset[str]` is modelled as `List String`; the properties proved
  here only depend on membership and emptiness, never on iteration order.
* Python `dict` is modelled as an association list (`List (key × value)`) with
  insertion order preserved, matching Python dict semantics.
* Calls into the Python `re` module, `pathlib` glob matching, the file system
  and the external state store are modelled by an explicit `Oracle` record of
  total functions; the engine's own logic is translated from the source and is
  proved for every oracle.
* A Python function that may raise is modelled with `Except`/`Option` results.
-/

namespace Dignity

/-- Case-sensitive substring containment, Python `needle in hay`. -/
def str_contains (hay needle : String) : Bool :=
  hay.toList.tails.any (fun t => needle.toList.isPrefixOf t)

/-- Python `dict.get(key)` on an association list (first binding wins). -/
def assoc_get {α β : Type} [DecidableEq α] : List (α × β) → α → Option β
  | [], _ => none
  | kv :: rest, key => if kv.1 = key then some kv.2 else assoc_get rest key

/-- Python `dict[key] = value`: replace the existing binding or append a new one. -/
def assoc_set {α β : Type} [DecidableEq α] : List (α × β) → α → β → List (α × β)
  | [], key, v => [(key, v)]
  | kv :: rest, key, v =>
    if kv.1 = key then (key, v) :: rest else kv :: assoc_set rest key v

/-- Python `dict.update(other)`: later bindings overwrite earlier ones. -/
def dict_update (d upd : List (String × String)) : List (String × String) :=
  upd.foldl (fun acc kv => assoc_set acc kv.1 kv.2) d

/-- Python string slicing `s[:n]`: the first `n` characters of `s` (via the
character list, so evaluation is bounded by the string length). -/
def str_take (s : String) (n : Nat) : String :=
  String.mk (s.toList.take n)

/-- Python `str.join`: `join_with sep [a, b, c] = a ++ sep ++ b ++ sep ++ c`. -/
def join_with (sep : String) : List String → String
  | [] => ""
  | a :: rest => rest.foldl (fun acc s => acc ++ sep ++ s) a

/-- The `Priority` literal type of `types.py`. -/
inductive Priority where
  | high
  | medium
  | low
deriving DecidableEq

/-- The `HookEvent` literal type of `types.py`. -/
inductive HookEvent where
  | UserPromptSubmit
  | Stop
  | SubagentStop
deriving DecidableEq

/-- The `Action` discriminated union of `types.py`. -/
inductive Action where
  | suggest_skill (skill : String) (reason : String)
  | remind (message : String)
  | block (reason : String)
  | inject_context (context : String)
  | set_state (key : String) (value_from : String)
  | clear_state (key : String)
deriving DecidableEq

/-- `ToolResultTrigger` of `types.py`. -/
structure ToolResultTrigger where
  tool_name : List String := []
  parameter_patterns : List (String × List String) := []
deriving DecidableEq

/-- `ToolResultTrigger.is_active`. -/
def ToolResultTrigger.is_active (t : ToolResultTrigger) : Bool :=
  !t.tool_name.isEmpty

/-- `TodoStateTrigger` of `types.py`. -/
structure TodoStateTrigger where
  any_completed : Bool := false
  all_completed : Bool := false
deriving DecidableEq

/-- `TodoStateTrigger.is_active`. -/
def TodoStateTrigger.is_active (t : TodoStateTrigger) : Bool :=
  t.any_completed || t.all_completed

/-- `SkillInvokedTrigger` of `types.py`. -/
structure SkillInvokedTrigger where
  skill : String := ""
deriving DecidableEq

/-- `SkillInvokedTrigger.is_active`. -/
def SkillInvokedTrigger.is_active (t : SkillInvokedTrigger) : Bool :=
  !t.skill.isEmpty

/-- `OutputMissingTrigger` of `types.py`. -/
structure OutputMissingTrigger where
  required_patterns : List String := []
deriving DecidableEq

/-- `OutputMissingTrigger.is_active`. -/
def OutputMissingTrigger.is_active (t : OutputMissingTrigger) : Bool :=
  !t.required_patterns.isEmpty

/-- `FilesChangedTrigger` of `types.py`. -/
structure FilesChangedTrigger where
  path_patterns : List String := []
  content_patterns : List String := []
deriving DecidableEq

/-- `FilesChangedTrigger.is_active`: active iff path patterns or content patterns exist. -/
def FilesChangedTrigger.is_active (t : FilesChangedTrigger) : Bool :=
  !t.path_patterns.isEmpty || !t.content_patterns.isEmpty

/-- `StateExistsTrigger` of `types.py`. -/
structure StateExistsTrigger where
  key : String := ""
deriving DecidableEq

/-- `StateExistsTrigger.is_active`. -/
def StateExistsTrigger.is_active (t : StateExistsTrigger) : Bool :=
  !t.key.isEmpty

/-- `TriggerGroup` of `types.py`: base text-pattern fields plus six sub-triggers. -/
structure TriggerGroup where
  patterns : List (String × List String) := []
  tool_result : ToolResultTrigger := {}
  todo_state : TodoStateTrigger := {}
  skill_invoked : SkillInvokedTrigger := {}
  output_missing : OutputMissingTrigger := {}
  files_changed : FilesChangedTrigger := {}
  state_exists : StateExistsTrigger := {}
deriving DecidableEq

/-- `TriggerSpec` of `types.py`.  Only the normalized form is modelled: the
legacy flat fields are folded into a single implicit group at construction time
by `__post_init__`, so evaluation code only ever sees `groups`. -/
structure TriggerSpec where
  groups : List TriggerGroup := []
deriving DecidableEq

/-- `Rule` of `types.py`. -/
structure Rule where
  name : String
  priority : Priority := .medium
  action : Action
  triggers : List (HookEvent × TriggerSpec) := []
deriving DecidableEq

/-- `Match` of `types.py`. -/
structure Match where
  rule_name : String
  priority : Priority
  action : Action
  matched_patterns : List String := []
  captures : List (String × String) := []
deriving DecidableEq

/-- A tool-use record inside the `tool_results` context field (a Python dict
with a `tool_name` string and a `parameters` dict). -/
structure ToolResult where
  tool_name : String := ""
  parameters : List (String × String) := []
deriving DecidableEq

/-- One heterogeneous value of the `HookContext` dict. -/
inductive CtxValue where
  | vStr (s : String)
  | vStrList (l : List String)
  | vToolResults (l : List (Option ToolResult))
  | vTodo (any_completed : Bool) (all_completed : Bool)
deriving DecidableEq

/-- `HookContext` of `types.py`: an open, heterogeneous dict built by the
extractor.  `tool_results` entries that are not dicts are modelled as `none`
(the matcher skips them); `todo_state` is the two-flag dict; `invoked_skills`
and `changed_files` are string collections. -/
abbrev HookContext := List (String × CtxValue)

/-- `context.get(field, "")` for a text field. -/
def get_str (context : HookContext) (field : String) : String :=
  match assoc_get context field with
  | some (.vStr s) => s
  | _ => ""

/-- `context.get(field, [])` / `context.get(field, set())` for a string collection. -/
def get_str_list (context : HookContext) (field : String) : List String :=
  match assoc_get context field with
  | some (.vStrList l) => l
  | _ => []

/-- `context.get("tool_results", [])`. -/
def get_tool_results (context : HookContext) : List (Option ToolResult) :=
  match assoc_get context "tool_results" with
  | some (.vToolResults l) => l
  | _ => []

/-- `context.get("todo_state", {})`, projected to its two truthiness flags. -/
def get_todo_state (context : HookContext) : Bool × Bool :=
  match assoc_get context "todo_state" with
  | some (.vTodo a b) => (a, b)
  | _ => (false, false)

/-- External-library behaviour the matchers depend on, as total functions.
The engine is proved correct for an arbitrary oracle; concrete witnesses
instantiate it with literal-substring regex semantics. -/
structure Oracle where
  /-- `re.search(rf"\b{re.escape(keyword)}\b", value)` on lowered keyword and
  lowered value (the pattern is escaped, so it can never be invalid). -/
  word_search : String → String → Bool
  /-- Whether compiling the pattern raises `re.error`. -/
  re_error : String → Bool
  /-- `re.search(pattern, value, re.IGNORECASE)` succeeded. -/
  re_search_ci : String → String → Bool
  /-- Case-sensitive `re.search(pattern, text)`; on success returns
  `match.groupdict()` (the named capture groups). -/
  re_search_caps : String → String → Option (List (String × String))
  /-- `pathlib.Path(path).match(pattern)`. -/
  glob_match : String → String → Bool
  /-- File content (`read_text` with `errors="ignore"`), or `none` when the
  path does not exist, is not a regular file, or reading raises. -/
  read_file : String → Option String
  /-- `dignity.state.exists(session_id, key)` as observed during matching. -/
  state_has : String → String → Bool

/-- `match_word_boundaries` of `matchers.py`. -/
def match_word_boundaries (o : Oracle) (value : String) (patterns : List String) :
    List String :=
  if value.isEmpty || patterns.isEmpty then []
  else patterns.filter (fun keyword => o.word_search keyword.toLower value.toLower)

/-- `match_regex` of `matchers.py`: an invalid pattern is skipped silently. -/
def match_regex (o : Oracle) (value : String) (patterns : List String) : List String :=
  if value.isEmpty || patterns.isEmpty then []
  else patterns.filter (fun p => if o.re_error p then false else o.re_search_ci p value)

/-- `match_exact` of `matchers.py`. -/
def match_exact (value : String) (patterns : List String) : List String :=
  if value.isEmpty || patterns.isEmpty then []
  else patterns.filter (fun p => p.toLower == value.toLower)

/-- `match_substring` of `matchers.py`. -/
def match_substring (value : String) (patterns : List String) : List String :=
  if value.isEmpty || patterns.isEmpty then []
  else patterns.filter (fun p => str_contains value.toLower p.toLower)

/-- The `FIELD_MATCHERS` registry of `matchers.py`. -/
def field_matcher (o : Oracle) : String → Option (String → List String → List String)
  | "keywords" => some (match_word_boundaries o)
  | "intent_patterns" => some (match_regex o)
  | "prompt" => some (match_word_boundaries o)
  | "description_patterns" => some (match_regex o)
  | "agent_types" => some match_exact
  | "subagent_type" => some match_exact
  | "output_patterns" => some (match_regex o)
  | "content_patterns" => some (match_regex o)
  | "path_patterns" => some (match_regex o)
  | _ => none

/-- `match_patterns` of `matchers.py`: OR across fields, unknown fields and
empty values are skipped. -/
def match_patterns (o : Oracle) (patterns : List (String × List String))
    (context : HookContext) : List String :=
  patterns.foldl (fun all_matched fp =>
    if fp.2.isEmpty then all_matched
    else
      match field_matcher o fp.1 with
      | none => all_matched
      | some matcher =>
        let value := get_str context fp.1
        if value.isEmpty then all_matched
        else all_matched ++ matcher value fp.2) []

/-- `match_tool_result_trigger` of `matchers.py`: `tool_name` is required,
`parameter_patterns` is an optional refinement. -/
def match_tool_result_trigger (o : Oracle) (trigger : ToolResultTrigger)
    (context : HookContext) : List String :=
  if trigger.tool_name.isEmpty then []
  else
    (get_tool_results context).foldl (fun matched result =>
      match result with
      | none => matched
      | some r =>
        if !trigger.tool_name.contains r.tool_name then matched
        else if trigger.parameter_patterns.isEmpty then matched ++ [r.tool_name]
        else
          let param_matched := trigger.parameter_patterns.foldl (fun pm pp =>
            let param_value := (assoc_get r.parameters pp.1).getD ""
            if param_value.isEmpty then pm
            else pm ++ match_regex o param_value pp.2) []
          if param_matched.isEmpty then matched
          else matched ++ [r.tool_name] ++ param_matched) []

/-- `match_todo_state_trigger` of `matchers.py`. -/
def match_todo_state_trigger (trigger : TodoStateTrigger) (context : HookContext) :
    List String :=
  let todo_state := get_todo_state context
  (if trigger.any_completed && todo_state.1 then ["any_completed"] else [])
    ++ (if trigger.all_completed && todo_state.2 then ["all_completed"] else [])

/-- `match_skill_invoked_trigger` of `matchers.py`. -/
def match_skill_invoked_trigger (trigger : SkillInvokedTrigger)
    (context : HookContext) : List String :=
  let invoked_skills := get_str_list context "invoked_skills"
  if invoked_skills.contains trigger.skill then [trigger.skill] else []

/-- `match_output_missing_trigger` of `matchers.py`: fires only when every
required pattern is absent from the last response. -/
def match_output_missing_trigger (trigger : OutputMissingTrigger)
    (context : HookContext) : List String :=
  if trigger.required_patterns.isEmpty then []
  else
    let last_response := get_str context "last_response"
    let missing := trigger.required_patterns.filter
      (fun p => !str_contains last_response p)
    if missing == trigger.required_patterns then missing else []

/-- `match_state_exists_trigger` of `matchers.py`: requires a session id. -/
def match_state_exists_trigger (o : Oracle) (trigger : StateExistsTrigger)
    (context : HookContext) : List String :=
  if trigger.key.isEmpty then []
  else
    let session_id := get_str context "session_id"
    if session_id.isEmpty then []
    else if o.state_has session_id trigger.key then [trigger.key] else []

/-- `match_file_content` of `matchers.py`: only the first 10,000 characters of
the file are searched; a missing or unreadable file matches nothing. -/
def match_file_content (o : Oracle) (path : String) (patterns : List String) :
    List String :=
  if patterns.isEmpty then []
  else
    match o.read_file path with
    | none => []
    | some content => match_regex o (str_take content 10000) patterns

/-- One inner-loop step of the path-pattern scan in
`match_files_changed_trigger`: try the pattern as a regex (collecting named
captures); an invalid regex falls back to glob matching with no captures. -/
def path_pattern_step (o : Oracle) (path_str : String)
    (acc : List String × List (String × String)) (pattern : String) :
    List String × List (String × String) :=
  if o.re_error pattern then
    if o.glob_match path_str pattern then (acc.1 ++ [pattern], acc.2) else acc
  else
    match o.re_search_caps pattern path_str with
    | some groupdict => (acc.1 ++ [pattern], dict_update acc.2 groupdict)
    | none => acc

/-- The outer loop of the path-pattern scan, threading the accumulated
matched patterns and captures through every changed file. -/
def files_path_go (o : Oracle) (trigger : FilesChangedTrigger)
    (acc : List String × List (String × String)) :
    List String → List String × List (String × String)
  | [] => acc
  | path_str :: rest =>
    files_path_go o trigger
      (trigger.path_patterns.foldl (path_pattern_step o path_str) acc) rest

/-- The path-pattern loop of `match_files_changed_trigger`, started on empty
matched patterns and captures. -/
def files_path_loop (o : Oracle) (trigger : FilesChangedTrigger)
    (changed_files : List String) : List String × List (String × String) :=
  files_path_go o trigger ([], []) changed_files

/-- The content-pattern loop of `match_files_changed_trigger`: scans every
changed file, extending the matched set and recording whether any file content
matched. -/
def files_content_loop (o : Oracle) (trigger : FilesChangedTrigger) :
    List String → List String → List String × Bool
  | [], matched => (matched, false)
  | file_path :: rest, matched =>
    let content_matches := match_file_content o file_path trigger.content_patterns
    if !content_matches.isEmpty then
      let r := files_content_loop o trigger rest (matched ++ content_matches)
      (r.1, true)
    else files_content_loop o trigger rest matched

/-- `match_files_changed_trigger` of `matchers.py`. -/
def match_files_changed_trigger (o : Oracle) (trigger : FilesChangedTrigger)
    (context : HookContext) : List String × List (String × String) :=
  if !trigger.is_active then ([], [])
  else
    let changed_files := get_str_list context "changed_files"
    if changed_files.isEmpty then ([], [])
    else
      let pr := files_path_loop o trigger changed_files
      if !pr.1.isEmpty && !trigger.content_patterns.isEmpty then
        let cr := files_content_loop o trigger changed_files pr.1
        if !cr.2 then ([], []) else (cr.1, pr.2)
      else pr

/-- One evaluated member of a trigger group: its activeness flag, its matched
evidence, and its captures (empty for every member except `files_changed`). -/
structure MemberResult where
  active : Bool
  matched : List String
  captures : List (String × String)

/-- Accumulator of the member scan in `match_trigger_group`. -/
structure GroupAcc where
  all_matched : List String
  all_captures : List (String × String)
  active_count : Nat
  matched_count : Nat

/-- One step of the member scan in `match_trigger_group`: an active member is
counted, and if it matched its evidence and captures are merged. -/
def group_step (acc : GroupAcc) (member : MemberResult) : GroupAcc :=
  if member.active then
    if !member.matched.isEmpty then
      ⟨acc.all_matched ++ member.matched, dict_update acc.all_captures member.captures,
        acc.active_count + 1, acc.matched_count + 1⟩
    else ⟨acc.all_matched, acc.all_captures, acc.active_count + 1, acc.matched_count⟩
  else acc

/-- The seven members of a trigger group in the order `match_trigger_group`
checks them: base patterns, then the six specialized sub-triggers. -/
def group_members (o : Oracle) (group : TriggerGroup) (context : HookContext) :
    List MemberResult :=
  let fc := match_files_changed_trigger o group.files_changed context
  [⟨!group.patterns.isEmpty, match_patterns o group.patterns context, []⟩,
    ⟨group.tool_result.is_active, match_tool_result_trigger o group.tool_result context, []⟩,
    ⟨group.todo_state.is_active, match_todo_state_trigger group.todo_state context, []⟩,
    ⟨group.skill_invoked.is_active, match_skill_invoked_trigger group.skill_invoked context, []⟩,
    ⟨group.output_missing.is_active, match_output_missing_trigger group.output_missing context, []⟩,
    ⟨group.files_changed.is_active, fc.1, fc.2⟩,
    ⟨group.state_exists.is_active, match_state_exists_trigger o group.state_exists context, []⟩]

/-- The final counting decision of `match_trigger_group` after scanning a
member list: no active member means no match, and all active members must
have matched (AND semantics). -/
def group_scan (members : List MemberResult) :
    Option (List String × List (String × String)) :=
  let acc := members.foldl group_step ⟨[], [], 0, 0⟩
  if acc.active_count = 0 then none
  else if acc.matched_count = acc.active_count then some (acc.all_matched, acc.all_captures)
  else none

/-- `match_trigger_group` of `matchers.py`: scan the seven members in source
order and apply the AND decision. -/
def match_trigger_group (o : Oracle) (group : TriggerGroup) (context : HookContext) :
    Option (List String × List (String × String)) :=
  group_scan (group_members o group context)

/-- `PRIORITY_ORDER` of `dispatcher.py`. -/
def priority_order : Priority → Nat
  | .high => 0
  | .medium => 1
  | .low => 2

/-- The sort key comparison used by `analyze_hook`. -/
def priority_le (a b : Match) : Prop :=
  priority_order a.priority ≤ priority_order b.priority

instance : DecidableRel priority_le := fun _ _ => Nat.decLe _ _

instance : IsTotal Match priority_le := ⟨fun _ _ => Nat.le_total _ _⟩

instance : IsTrans Match priority_le := ⟨fun _ _ _ => Nat.le_trans⟩

/-- Python `sorted(matches, key=lambda m: PRIORITY_ORDER[m.priority])`:
`sorted` is a stable sort, which insertion sort on `priority_le` realizes
exactly. -/
def sort_matches (ms : List Match) : List Match :=
  List.insertionSort priority_le ms

/-- The group loop of `_match_rule` in `dispatcher.py`: OR across groups,
returning on the first matching group. -/
def match_rule_groups (o : Oracle) (rule : Rule) (context : HookContext) :
    List TriggerGroup → Option Match
  | [] => none
  | group :: rest =>
    match match_trigger_group o group context with
    | some gr => some ⟨rule.name, rule.priority, rule.action, gr.1, gr.2⟩
    | none => match_rule_groups o rule context rest

/-- `_match_rule` of `dispatcher.py`. -/
def match_rule (o : Oracle) (rule : Rule) (hook_event : HookEvent)
    (context : HookContext) : Option Match :=
  match assoc_get rule.triggers hook_event with
  | none => none
  | some trigger_spec =>
    if trigger_spec.groups.isEmpty then none
    else match_rule_groups o rule context trigger_spec.groups

/-- The evaluation of one rule inside `analyze_hook`.  In Python this is the
call `_match_rule(rule, hook_event, context)` inside `try`; an evaluator
returning `.error e` models that call raising exception `e` (e.g. an `OSError`
from the state store or a `ValueError` from glob matching). -/
abbrev RuleEval := Rule → HookEvent → HookContext → Except String (Option Match)

/-- The exception-free evaluator: `_match_rule` itself never fails when the
external oracle functions are total. -/
def pure_eval_rule (o : Oracle) : RuleEval :=
  fun rule hook_event context => .ok (match_rule o rule hook_event context)

/-- The rule loop of `analyze_hook`: failures are recorded in the error list
and the pass continues; only `.ok (some m)` contributes a match.  The Python
append-loop is rendered as head recursion producing the same two sequences in
rule order. -/
def collect_matches (eval_rule : RuleEval) (hook_event : HookEvent)
    (context : HookContext) : List (String × Rule) → List Match × List String
  | [] => ([], [])
  | nr :: rest =>
    let acc := collect_matches eval_rule hook_event context rest
    match eval_rule nr.2 hook_event context with
    | .ok (some m) => (m :: acc.1, acc.2)
    | .ok none => acc
    | .error e => (acc.1, ("Rule " ++ nr.1 ++ ": " ++ e) :: acc.2)

/-- `analyze_hook` of `dispatcher.py`: empty context or empty rule set yields
no matches; otherwise every rule is evaluated independently and the matches
are stably sorted by priority. -/
def analyze_hook (eval_rule : RuleEval) (hook_event : HookEvent)
    (context : HookContext) (rules : List (String × Rule)) : List Match :=
  if context.isEmpty || rules.isEmpty then []
  else sort_matches (collect_matches eval_rule hook_event context rules).1

/-- `_extract_value` of `dispatcher.py`: only `captured.{key}` references
resolve. -/
def extract_value (value_from : String) (captures : List (String × String)) :
    Option String :=
  if value_from.startsWith "captured." then assoc_get captures (value_from.drop 9)
  else none

/-- The external key-file state store of `state.py`: one file per
`{session_id}-{key}` name, mapped to its content. -/
abbrev StateStore := List (String × String)

/-- `_get_state_path` of `state.py` (the file name; the directory is fixed). -/
def state_path (session_id key : String) : String :=
  session_id ++ "-" ++ key

/-- `state.get`. -/
def state_get (σ : StateStore) (session_id key : String) : Option String :=
  assoc_get σ (state_path session_id key)

/-- `state.set`: overwrites an existing value. -/
def state_set (σ : StateStore) (session_id key value : String) : StateStore :=
  assoc_set σ (state_path session_id key) value

/-- `state.clear`: `unlink(missing_ok=True)` — idempotent removal. -/
def state_clear (σ : StateStore) (session_id key : String) : StateStore :=
  σ.filter (fun kv => kv.1 != state_path session_id key)

/-- `state.exists`. -/
def state_exists (σ : StateStore) (session_id key : String) : Bool :=
  (state_get σ session_id key).isSome

/-- `_execute_actions` of `dispatcher.py` as a state transformer: a missing
session id skips everything; a SetState on an existing key or with an
unresolvable capture reference is skipped; ClearState always clears. -/
def execute_actions (ms : List Match) (context : HookContext) (σ : StateStore) :
    StateStore :=
  let session_id := get_str context "session_id"
  if session_id.isEmpty then σ
  else
    ms.foldl (fun σ m =>
      match m.action with
      | .set_state key value_from =>
        if state_exists σ session_id key then σ
        else
          match extract_value value_from m.captures with
          | none => σ
          | some value => state_set σ session_id key value
      | .clear_state key => state_clear σ session_id key
      | _ => σ) σ

/-- The per-entry lines of the HIGH/MEDIUM blocks in
`format_skill_suggestions`: skill plus optional reason line. -/
def suggestion_lines (entries : List (String × String)) : List String :=
  entries.foldl (fun lines e =>
    lines ++ ["  - " ++ e.1]
      ++ (if !e.2.isEmpty then ["    Reason: " ++ e.2] else [])) []

/-- `format_skill_suggestions` of `actions.py`: SuggestSkill matches grouped
into HIGH/MEDIUM/LOW blocks; reasons are shown except in the LOW block. -/
def format_skill_suggestions (ms : List Match) : String :=
  let high := ms.filterMap (fun m =>
    match m.action, m.priority with
    | .suggest_skill skill reason, .high => some (skill, reason)
    | _, _ => none)
  let medium := ms.filterMap (fun m =>
    match m.action, m.priority with
    | .suggest_skill skill reason, .medium => some (skill, reason)
    | _, _ => none)
  let low := ms.filterMap (fun m =>
    match m.action, m.priority with
    | .suggest_skill skill reason, .low => some (skill, reason)
    | _, _ => none)
  if high.isEmpty && medium.isEmpty && low.isEmpty then ""
  else
    let lines := ["SKILL ACTIVATION SUGGESTION", ""]
    let lines := if !high.isEmpty then
        lines ++ ["HIGH PRIORITY:"] ++ suggestion_lines high
      else lines
    let lines := if !medium.isEmpty then
        lines ++ (if !high.isEmpty then [""] else [])
          ++ ["MEDIUM PRIORITY:"] ++ suggestion_lines medium
      else lines
    let lines := if !low.isEmpty then
        lines ++ (if !high.isEmpty || !medium.isEmpty then [""] else [])
          ++ ["LOW PRIORITY:"] ++ low.map (fun e => "  - " ++ e.1)
      else lines
    let lines := lines ++ ["", "Consider invoking relevant skills with the Skill tool."]
    join_with "\n" lines

/-- `format_reminder` of `actions.py`: only SuggestSkill matches are
considered.  High-priority ones are each listed with their effective reason;
otherwise the first two non-high ones are listed without reasons. -/
def format_reminder (ms : List Match) : String :=
  let high := ms.filterMap (fun m =>
    match m.action, m.priority with
    | .suggest_skill skill reason, .high => some (skill, reason)
    | _, _ => none)
  let others := ms.filterMap (fun m =>
    match m.action, m.priority with
    | .suggest_skill _ _, .high => none
    | .suggest_skill skill reason, _ => some (skill, reason)
    | _, _ => none)
  if high.isEmpty && others.isEmpty then ""
  else
    let lines := ["Skill Reminder", "", "Consider:"]
    let lines := if !high.isEmpty then
        high.foldl (fun lines e =>
          let display_reason := if e.2.isEmpty then "Use " ++ e.1 else e.2
          lines ++ ["  - " ++ e.1 ++ ": " ++ display_reason]) lines
      else (others.take 2).foldl (fun lines e => lines ++ ["  - " ++ e.1]) lines
    join_with "\n" lines

/-- `format_stop_output` of `actions.py`: the Stop hook emits the reminder
text (the dispatcher prints it only when non-empty). -/
def format_stop_output (ms : List Match) : String :=
  format_reminder ms

/-- The two structured-response shapes `format_subagent_stop_output` can emit:
the block decision dict, or the `hookSpecificOutput` envelope. -/
inductive SubagentOutput where
  | blocked (reason : String)
  | envelope (hook_event_name : String) (additional_context : String)
deriving DecidableEq

/-- The early-return loop of `format_subagent_stop_output`: the first
BlockAction match wins. -/
def subagent_first_block : List Match → Option String
  | [] => none
  | m :: rest =>
    match m.action with
    | .block reason => some reason
    | _ => subagent_first_block rest

/-- `format_subagent_stop_output` of `actions.py`: Block takes absolute
precedence; otherwise a skill-suggestion envelope; otherwise no output. -/
def format_subagent_stop_output (ms : List Match) : Option SubagentOutput :=
  match subagent_first_block ms with
  | some reason => some (.blocked reason)
  | none =>
    let skill_text := format_skill_suggestions ms
    if !skill_text.isEmpty then some (.envelope "SubagentStop" skill_text)
    else none

/-- Claim vocabulary: a trigger group has at least one active member
(base patterns count as one member, like in `match_trigger_group`). -/
def has_active_member (group : TriggerGroup) : Bool :=
  !group.patterns.isEmpty || group.tool_result.is_active || group.todo_state.is_active
    || group.skill_invoked.is_active || group.output_missing.is_active
    || group.files_changed.is_active || group.state_exists.is_active

/-- Claim vocabulary: every active member of the group individually matches
the context (an inactive member imposes no condition). -/
def all_active_members_match (o : Oracle) (group : TriggerGroup)
    (context : HookContext) : Prop :=
  (group.patterns ≠ [] → match_patterns o group.patterns context ≠ [])
  ∧ (group.tool_result.is_active = true →
      match_tool_result_trigger o group.tool_result context ≠ [])
  ∧ (group.todo_state.is_active = true →
      match_todo_state_trigger group.todo_state context ≠ [])
  ∧ (group.skill_invoked.is_active = true →
      match_skill_invoked_trigger group.skill_invoked context ≠ [])
  ∧ (group.output_missing.is_active = true →
      match_output_missing_trigger group.output_missing context ≠ [])
  ∧ (group.files_changed.is_active = true →
      (match_files_changed_trigger o group.files_changed context).1 ≠ [])
  ∧ (group.state_exists.is_active = true →
      match_state_exists_trigger o group.state_exists context ≠ [])

/-- Claim vocabulary: the first non-null group result, in declared order. -/
def first_group_match (o : Oracle) (context : HookContext) :
    List TriggerGroup → Option (List String × List (String × String))
  | [] => none
  | group :: rest =>
    match match_trigger_group o group context with
    | some gr => some gr
    | none => first_group_match o context rest

/-- Claim vocabulary: the changed files whose path matches some path pattern
(by regex, or by the glob fallback for an invalid regex). -/
def path_matching_files (o : Oracle) (trigger : FilesChangedTrigger)
    (files : List String) : List String :=
  files.filter (fun f => trigger.path_patterns.any (fun pattern =>
    if o.re_error pattern then o.glob_match f pattern
    else (o.re_search_caps pattern f).isSome))

/-- Claim vocabulary: the reason of a Block match, if the match is one. -/
def block_reason_of (m : Match) : Option String :=
  match m.action with
  | .block reason => some reason
  | _ => none

/-- Claim vocabulary: whether a match carries a SuggestSkill action. -/
def is_suggest_skill_match (m : Match) : Bool :=
  match m.action with
  | .suggest_skill _ _ => true
  | _ => false

/-- The skill/reason payload of a SuggestSkill match. -/
def skill_reason_of (m : Match) : String × String :=
  match m.action with
  | .suggest_skill skill reason => (skill, reason)
  | _ => ("", "")

/-- Claim vocabulary: the high-priority SuggestSkill entries of a match list. -/
def high_skill_entries (ms : List Match) : List (String × String) :=
  (ms.filter (fun m => is_suggest_skill_match m && (m.priority == Priority.high))).map
    skill_reason_of

/-- Claim vocabulary: the non-high-priority SuggestSkill entries. -/
def other_skill_entries (ms : List Match) : List (String × String) :=
  (ms.filter (fun m => is_suggest_skill_match m && !(m.priority == Priority.high))).map
    skill_reason_of

/-- Claim vocabulary: the effective reason of a reminder entry — the
configured reason, or the `Use {skill}` fallback when it is empty. -/
def effective_reason (skill reason : String) : String :=
  if reason.isEmpty then "Use " ++ skill else reason

/-- A reminder line with its effective reason. -/
def reminder_line_with_reason (e : String × String) : String :=
  "  - " ++ e.1 ++ ": " ++ effective_reason e.1 e.2

/-- A reminder line without a reason. -/
def reminder_line_plain (e : String × String) : String :=
  "  - " ++ e.1

/-- Whether an `Except` result is an error (a raised exception). -/
def is_err {ε α : Type} : Except ε α → Bool
  | .error _ => true
  | .ok _ => false

/-- An oracle on which nothing matches, nothing exists and no file is
readable. -/
def o_triv : Oracle :=
  ⟨fun _ _ => false, fun _ => false, fun _ _ => false, fun _ _ => none,
    fun _ _ => false, fun _ => none, fun _ _ => false⟩

/-- A concrete oracle with literal-substring regex semantics (consistent with
Python `re` on plain alphanumeric patterns) and a two-file file system. -/
def o_c3 : Oracle :=
  ⟨fun _ _ => false,
    fun _ => false,
    fun pattern text => str_contains text pattern,
    fun pattern text => if str_contains text pattern then some [] else none,
    fun _ _ => false,
    fun path =>
      if path = "alpha.md" then some "no evidence here"
      else if path = "beta.md" then some "needle inside"
      else none,
    fun _ _ => false⟩

/-- A FilesChanged trigger with one path pattern and one content pattern. -/
def t_c3 : FilesChangedTrigger :=
  ⟨["alpha"], ["needle"]⟩

/-- A context where only `alpha.md` path-matches but only `beta.md`
content-matches. -/
def ctx_c3 : HookContext :=
  [("changed_files", CtxValue.vStrList ["alpha.md", "beta.md"])]

/-- A single high-priority Remind match. -/
def ms_c7 : List Match :=
  [⟨"tdd_reminder", Priority.high, Action.remind "use the tdd skill", [], []⟩]

/-- A high-priority SuggestSkill match with an empty configured reason. -/
def ms_c7w : List Match :=
  [⟨"suggest_tdd", Priority.high, Action.suggest_skill "tdd" "", [], []⟩]

/-- A SubagentStop match list with both a SuggestSkill and a Block match. -/
def ms_c6 : List Match :=
  [⟨"suggest_tdd", Priority.high, Action.suggest_skill "tdd" "write tests", [], []⟩,
    ⟨"tdd_gate", Priority.high, Action.block "fix tests", [], []⟩]

/-- A rule whose Stop trigger spec has zero groups. -/
def rule_w2 : Rule :=
  ⟨"empty_rule", Priority.medium, Action.remind "m", [(HookEvent.Stop, ⟨[]⟩)]⟩

/-- A state store in which session `sess` already has `focus` set. -/
def sigma_w8 : StateStore :=
  [("sess-focus", "v1")]

/-- A context carrying only a session id. -/
def ctx_w8 : HookContext :=
  [("session_id", CtxValue.vStr "sess")]

/-- Fixed matches with priorities low, high, medium, high (in that order). -/
def m_low : Match :=
  ⟨"r_low", Priority.low, Action.remind "a", [], []⟩

/-- A first high-priority match. -/
def m_high1 : Match :=
  ⟨"r_high1", Priority.high, Action.remind "b", [], []⟩

/-- A medium-priority match. -/
def m_med : Match :=
  ⟨"r_med", Priority.medium, Action.remind "c", [], []⟩

/-- A second high-priority match, distinct from the first. -/
def m_high2 : Match :=
  ⟨"r_high2", Priority.high, Action.remind "d", [], []⟩

/-- A non-empty context for the analyze-hook witnesses. -/
def ctx_w9 : HookContext :=
  [("prompt", CtxValue.vStr "hello")]

/-- A one-rule rule set whose rule has no Stop triggers. -/
def rules_w9 : List (String × Rule) :=
  [("r_low", ⟨"r_low", Priority.low, Action.remind "a", []⟩)]

/-- A trigger group whose files_changed trigger has only content patterns. -/
def g_c10 : TriggerGroup :=
  { files_changed := ⟨[], ["TODO"]⟩ }

theorem group_fold_active_count (l : List MemberResult) (acc : GroupAcc) :
    (l.foldl group_step acc).active_count
      = acc.active_count + l.countP (fun m => m.active) := by
  induction l generalizing acc with
  | nil => simp
  | cons m rest ih =>
    rw [List.foldl_cons, ih (group_step acc m), List.countP_cons]
    unfold group_step
    by_cases hm : m.active = true
    · by_cases hmm : m.matched.isEmpty = true
      · simp [hm, hmm]
        omega
      · simp [hm, hmm]
        omega
    · simp only [Bool.not_eq_true] at hm
      simp [hm]

theorem group_fold_matched_count (l : List MemberResult) (acc : GroupAcc) :
    (l.foldl group_step acc).matched_count
      = acc.matched_count + l.countP (fun m => m.active && !m.matched.isEmpty) := by
  induction l generalizing acc with
  | nil => simp
  | cons m rest ih =>
    rw [List.foldl_cons, ih (group_step acc m), List.countP_cons]
    unfold group_step
    by_cases hm : m.active = true
    · by_cases hmm : m.matched.isEmpty = true
      · simp [hm, hmm]
      · simp [hm, hmm]
        omega
    · simp only [Bool.not_eq_true] at hm
      simp [hm]

theorem countP_imp_eq_iff {α : Type} (p q : α → Bool) (l : List α)
    (himp : ∀ a ∈ l, p a = true → q a = true) :
    l.countP p = l.countP q ↔ ∀ a ∈ l, q a = true → p a = true := by
  induction l with
  | nil => simp
  | cons a rest ih =>
    have hrest := ih (fun x hx => himp x (List.mem_cons_of_mem a hx))
    have hle : rest.countP p ≤ rest.countP q :=
      List.countP_mono_left (fun x hx => himp x (List.mem_cons_of_mem a hx))
    rw [List.countP_cons, List.countP_cons]
    by_cases hq : q a = true
    · by_cases hp : p a = true
      · simp [hp, hq, hrest, List.forall_mem_cons]
      · simp only [Bool.not_eq_true] at hp
        simp only [hp, hq, List.forall_mem_cons]
        simp only [Bool.false_eq_true, if_false, if_true]
        exact iff_of_false (by omega) (by simp [hp])
    · have hp : p a = false := by
        cases hpa : p a
        · rfl
        · exact absurd (himp a (List.mem_cons_self a rest) hpa) hq
      simp only [Bool.not_eq_true] at hq
      simp [hp, hq, hrest, List.forall_mem_cons]

theorem group_scan_isSome_iff (members : List MemberResult) :
    (group_scan members).isSome = true ↔
      ((∃ m ∈ members, m.active = true)
        ∧ ∀ m ∈ members, m.active = true → m.matched ≠ []) := by
  have ha := group_fold_active_count members ⟨[], [], 0, 0⟩
  have hm := group_fold_matched_count members ⟨[], [], 0, 0⟩
  simp only [Nat.zero_add] at ha hm
  have himp : ∀ x ∈ members, (x.active && !x.matched.isEmpty) = true → x.active = true := by
    intro x _ h
    simp only [Bool.and_eq_true] at h
    exact h.1
  simp only [group_scan]
  by_cases h0 : (members.foldl group_step ⟨[], [], 0, 0⟩).active_count = 0
  · rw [if_pos h0]
    rw [ha] at h0
    have hnone := List.countP_eq_zero.mp h0
    simp only [Option.isSome_none, Bool.false_eq_true, false_iff, not_and]
    intro hex
    obtain ⟨m, hmem, hact⟩ := hex
    exact absurd hact (hnone m hmem)
  · rw [if_neg h0]
    by_cases heq : (members.foldl group_step ⟨[], [], 0, 0⟩).matched_count
        = (members.foldl group_step ⟨[], [], 0, 0⟩).active_count
    · rw [if_pos heq]
      simp only [Option.isSome_some, true_iff]
      constructor
      · rw [ha] at h0
        have hpos : 0 < members.countP (fun m => m.active) := Nat.pos_of_ne_zero h0
        exact List.countP_pos_iff.mp hpos
      · rw [hm, ha] at heq
        have hall := (countP_imp_eq_iff _ _ members himp).mp heq
        intro m hmem hact
        have h2 := hall m hmem hact
        simp only [Bool.and_eq_true] at h2
        simpa using h2.2
    · rw [if_neg heq]
      simp only [Option.isSome_none, Bool.false_eq_true, false_iff, not_and]
      intro _ hall
      apply heq
      rw [hm, ha]
      apply (countP_imp_eq_iff _ _ members himp).mpr
      intro m hmem hact
      have hne := hall m hmem hact
      simp [hact, hne]

theorem members_active_iff (o : Oracle) (group : TriggerGroup) (context : HookContext) :
    (∃ m ∈ group_members o group context, m.active = true)
      ↔ has_active_member group = true := by
  simp only [group_members, has_active_member, List.mem_cons, List.not_mem_nil,
    or_false, exists_eq_or_imp, exists_eq_left, Bool.or_eq_true, Bool.not_eq_true',
    List.isEmpty_iff, List.isEmpty_eq_false]
  tauto

theorem members_match_iff (o : Oracle) (group : TriggerGroup) (context : HookContext) :
    (∀ m ∈ group_members o group context, m.active = true → m.matched ≠ [])
      ↔ all_active_members_match o group context := by
  simp [group_members, all_active_members_match, List.forall_mem_cons]

/-- C1: for every trigger group and context, `match_trigger_group` returns a
non-null result iff the group has at least one active member and every active
member individually matches the context; a group with zero active members
never matches. -/
theorem spec_c1 (o : Oracle) (group : TriggerGroup) (context : HookContext) :
    (match_trigger_group o group context).isSome = true ↔
      (has_active_member group = true ∧ all_active_members_match o group context) := by
  have h := group_scan_isSome_iff (group_members o group context)
  rw [members_active_iff, members_match_iff] at h
  exact h

/-- C4: `match_output_missing_trigger` matches iff `required_patterns` is
non-empty and no required pattern occurs as a substring of the context's
`last_response`; the presence of even one required pattern suppresses it. -/
theorem spec_c4 (trigger : OutputMissingTrigger) (context : HookContext) :
    match_output_missing_trigger trigger context ≠ [] ↔
      (trigger.required_patterns ≠ []
        ∧ ∀ p ∈ trigger.required_patterns,
            str_contains (get_str context "last_response") p = false) := by
  unfold match_output_missing_trigger
  by_cases hreq : trigger.required_patterns.isEmpty = true
  · rw [List.isEmpty_iff] at hreq
    simp [hreq]
  · rw [if_neg hreq]
    rw [List.isEmpty_iff] at hreq
    by_cases hfil : trigger.required_patterns.filter
        (fun p => !str_contains (get_str context "last_response") p)
        = trigger.required_patterns
    · have hcond : (trigger.required_patterns.filter
          (fun p => !str_contains (get_str context "last_response") p)
          == trigger.required_patterns) = true := by
        simp [hfil]
      rw [if_pos hcond]
      apply iff_of_true
      · rw [hfil]
        exact hreq
      · refine ⟨hreq, ?_⟩
        intro p hp
        have := List.filter_eq_self.mp hfil p hp
        simpa using this
    · have hcond : (trigger.required_patterns.filter
          (fun p => !str_contains (get_str context "last_response") p)
          == trigger.required_patterns) ≠ true := by
        simp [hfil]
      rw [if_neg hcond]
      apply iff_of_false
      · simp
      · intro hrhs
        apply hfil
        apply List.filter_eq_self.mpr
        intro p hp
        simp [hrhs.2 p hp]

theorem match_rule_groups_eq (o : Oracle) (rule : Rule) (context : HookContext)
    (gs : List TriggerGroup) :
    match_rule_groups o rule context gs
      = (first_group_match o context gs).map
          (fun gr => Match.mk rule.name rule.priority rule.action gr.1 gr.2) := by
  induction gs with
  | nil => rfl
  | cons g rest ih =>
    simp only [match_rule_groups, first_group_match]
    cases h : match_trigger_group o g context with
    | some gr => simp
    | none => simpa using ih

/-- C2: for every rule whose trigger spec for the event is registered,
`_match_rule` returns the result of the first group (in declared order) whose
match is non-null, wrapped into a Match; a spec with zero groups never
matches. -/
theorem spec_c2 (o : Oracle) (rule : Rule) (hook_event : HookEvent)
    (context : HookContext) (trigger_spec : TriggerSpec)
    (h : assoc_get rule.triggers hook_event = some trigger_spec) :
    match_rule o rule hook_event context
      = (first_group_match o context trigger_spec.groups).map
          (fun gr => Match.mk rule.name rule.priority rule.action gr.1 gr.2)
    ∧ (trigger_spec.groups = [] → match_rule o rule hook_event context = none) := by
  unfold match_rule
  rw [h]
  cases hg : trigger_spec.groups with
  | nil =>
    constructor
    · simp [hg, first_group_match]
    · intro _
      simp [hg]
  | cons g rest =>
    constructor
    · simp [hg, match_rule_groups_eq]
    · intro hnil
      exact absurd hnil (by simp)

/-- Witness for C2 at a concrete rule whose Stop spec has zero groups. -/
theorem spec_c2_witness : match_rule o_triv rule_w2 HookEvent.Stop [] = none :=
  (spec_c2 o_triv rule_w2 HookEvent.Stop [] ⟨[]⟩ rfl).2 rfl

theorem collect_matches_all_err (eval_rule : RuleEval) (hook_event : HookEvent)
    (context : HookContext) (rules : List (String × Rule))
    (h : ∀ nr ∈ rules, is_err (eval_rule nr.2 hook_event context) = true) :
    (collect_matches eval_rule hook_event context rules).1 = [] := by
  induction rules with
  | nil => rfl
  | cons nr rest ih =>
    have hnr := h nr (List.mem_cons_self nr rest)
    cases hev : eval_rule nr.2 hook_event context with
    | ok om =>
      rw [hev] at hnr
      simp [is_err] at hnr
    | error e =>
      simp only [collect_matches, hev]
      simpa using ih (fun x hx => h x (List.mem_cons_of_mem nr hx))

theorem collect_matches_filter_err (eval_rule : RuleEval) (hook_event : HookEvent)
    (context : HookContext) (rules : List (String × Rule)) :
    (collect_matches eval_rule hook_event context
        (rules.filter (fun nr => !is_err (eval_rule nr.2 hook_event context)))).1
      = (collect_matches eval_rule hook_event context rules).1 := by
  induction rules with
  | nil => rfl
  | cons nr rest ih =>
    rw [List.filter_cons]
    by_cases hk : is_err (eval_rule nr.2 hook_event context) = true
    · rw [if_neg (by simp [hk])]
      cases hev : eval_rule nr.2 hook_event context with
      | ok om =>
        rw [hev] at hk
        simp [is_err] at hk
      | error e =>
        conv_rhs => rw [collect_matches]
        simp only [hev]
        exact ih
    · rw [if_pos (by simp [hk])]
      cases hev : eval_rule nr.2 hook_event context with
      | ok om =>
        cases om with
        | none =>
          conv_lhs => rw [collect_matches]
          conv_rhs => rw [collect_matches]
          simp only [hev]
          exact ih
        | some m =>
          conv_lhs => rw [collect_matches]
          conv_rhs => rw [collect_matches]
          simp only [hev]
          simpa using ih
      | error e =>
        rw [hev] at hk
        simp [is_err] at hk

/-- C5: for every rule set, context and evaluator, `analyze_hook` returns
exactly what it returns on the rule set with the exception-raising rules
removed — a failing rule is excluded and every other rule's matches are
unaffected, and the pass never aborts. -/
theorem spec_c5 (eval_rule : RuleEval) (hook_event : HookEvent) (context : HookContext)
    (rules : List (String × Rule)) :
    analyze_hook eval_rule hook_event context rules
      = analyze_hook eval_rule hook_event context
          (rules.filter (fun nr => !is_err (eval_rule nr.2 hook_event context))) := by
  unfold analyze_hook
  by_cases hctx : context.isEmpty = true
  · simp [hctx]
  · simp only [Bool.not_eq_true] at hctx
    by_cases hr : rules.isEmpty = true
    · rw [List.isEmpty_iff] at hr
      subst hr
      rfl
    · simp only [Bool.not_eq_true] at hr
      by_cases hf : (rules.filter
          (fun nr => !is_err (eval_rule nr.2 hook_event context))).isEmpty = true
      · have hf2 := hf
        rw [List.isEmpty_iff] at hf2
        have hall : ∀ nr ∈ rules, is_err (eval_rule nr.2 hook_event context) = true := by
          intro nr hmem
          have hdrop := List.filter_eq_nil_iff.mp hf2 nr hmem
          simpa using hdrop
        have h1 : (collect_matches eval_rule hook_event context rules).1 = [] :=
          collect_matches_all_err eval_rule hook_event context rules hall
        rw [if_neg (by simp [hctx, hr]), if_pos (by simp [hf])]
        rw [h1]
        rfl
      · simp only [Bool.not_eq_true] at hf
        rw [if_neg (by simp [hctx, hr]), if_neg (by simp [hctx, hf])]
        rw [collect_matches_filter_err]

theorem sorted_sort_matches (ms : List Match) :
    List.Sorted priority_le (sort_matches ms) :=
  List.sorted_insertionSort priority_le ms

theorem filter_orderedInsert_priority (p : Priority) (a : Match) (l : List Match) :
    (List.orderedInsert priority_le a l).filter (fun m => m.priority == p)
      = if a.priority == p
        then a :: l.filter (fun m => m.priority == p)
        else l.filter (fun m => m.priority == p) := by
  induction l with
  | nil =>
    by_cases hpa : (a.priority == p) = true
    all_goals simp [List.orderedInsert, List.filter_cons, hpa]
  | cons b l ih =>
    by_cases hab : priority_le a b
    · simp only [List.orderedInsert, if_pos hab]
      by_cases hpa : (a.priority == p) = true
      all_goals simp [List.filter_cons, hpa]
    · simp only [List.orderedInsert, if_neg hab]
      by_cases hpb : (b.priority == p) = true
      · have hpa : ¬(a.priority == p) = true := by
          intro hpa
          apply hab
          unfold priority_le
          have h1 : a.priority = p := by simpa using hpa
          have h2 : b.priority = p := by simpa using hpb
          rw [h1, h2]
        simp [List.filter_cons, hpb, ih, hpa]
      · simp [List.filter_cons, hpb, ih]

theorem filter_sort_matches (p : Priority) (ms : List Match) :
    (sort_matches ms).filter (fun m => m.priority == p)
      = ms.filter (fun m => m.priority == p) := by
  induction ms with
  | nil => rfl
  | cons a l ih =>
    unfold sort_matches at ih ⊢
    simp only [List.insertionSort]
    rw [filter_orderedInsert_priority]
    by_cases hpa : (a.priority == p) = true
    all_goals simp [List.filter_cons, hpa, ih]

/-- C9: the list returned by `analyze_hook` is sorted by the fixed priority
order high < medium < low; the sort is stable (the sublist of each priority
equals the pre-sort sublist); and matches with priorities
[low, high, medium, high] sort to [high, high, medium, low]. -/
theorem spec_c9 (eval_rule : RuleEval) (hook_event : HookEvent) (context : HookContext)
    (rules : List (String × Rule)) :
    List.Sorted priority_le (analyze_hook eval_rule hook_event context rules)
    ∧ ((context.isEmpty || rules.isEmpty) = false →
        ∀ p : Priority,
          (analyze_hook eval_rule hook_event context rules).filter
              (fun m => m.priority == p)
            = (collect_matches eval_rule hook_event context rules).1.filter
              (fun m => m.priority == p))
    ∧ sort_matches [m_low, m_high1, m_med, m_high2]
        = [m_high1, m_high2, m_med, m_low] := by
  refine ⟨?_, ?_, ?_⟩
  · unfold analyze_hook
    by_cases hg : (context.isEmpty || rules.isEmpty) = true
    · rw [if_pos hg]
      exact List.sorted_nil
    · rw [if_neg hg]
      exact sorted_sort_matches _
  · intro hg p
    unfold analyze_hook
    rw [if_neg (by simp [hg])]
    exact filter_sort_matches p _
  · decide

/-- Witness for C9 at a concrete non-empty context and rule set. -/
theorem spec_c9_witness :
    (analyze_hook (pure_eval_rule o_triv) HookEvent.Stop ctx_w9 rules_w9).filter
        (fun m => m.priority == Priority.high)
      = (collect_matches (pure_eval_rule o_triv) HookEvent.Stop ctx_w9 rules_w9).1.filter
        (fun m => m.priority == Priority.high) :=
  (spec_c9 (pure_eval_rule o_triv) HookEvent.Stop ctx_w9 rules_w9).2.1 (by decide)
    Priority.high

theorem files_content_loop_snd (o : Oracle) (trigger : FilesChangedTrigger)
    (files : List String) (matched : List String) :
    (files_content_loop o trigger files matched).2
      = files.any (fun f => !(match_file_content o f trigger.content_patterns).isEmpty) := by
  induction files generalizing matched with
  | nil => rfl
  | cons f rest ih =>
    simp only [files_content_loop, List.any_cons]
    by_cases h : (match_file_content o f trigger.content_patterns).isEmpty = true
    · simp [h, ih]
    · simp [h]

theorem files_content_loop_fst_prefix (o : Oracle) (trigger : FilesChangedTrigger)
    (files : List String) (matched : List String) :
    ∃ extra, (files_content_loop o trigger files matched).1 = matched ++ extra := by
  induction files generalizing matched with
  | nil => exact ⟨[], by simp [files_content_loop]⟩
  | cons f rest ih =>
    simp only [files_content_loop]
    by_cases h : (match_file_content o f trigger.content_patterns).isEmpty = true
    · simp only [h, Bool.not_true, Bool.false_eq_true, if_false]
      exact ih matched
    · simp only [h, Bool.not_false, if_true]
      obtain ⟨extra, hx⟩ := ih (matched ++ match_file_content o f trigger.content_patterns)
      exact ⟨match_file_content o f trigger.content_patterns ++ extra,
        by rw [hx, List.append_assoc]⟩

/-- C3 (amended): when content patterns are configured and the path loop
matched, the result is kept iff at least one changed file (not only a
path-matching one) has content matching a content pattern; when no changed
file's content matches, the entire result including captures is discarded. -/
theorem spec_c3_amended (o : Oracle) (trigger : FilesChangedTrigger)
    (context : HookContext)
    (hc : trigger.content_patterns ≠ [])
    (hp : (files_path_loop o trigger (get_str_list context "changed_files")).1 ≠ []) :
    ((match_files_changed_trigger o trigger context).1 ≠ [] ↔
      ∃ f ∈ get_str_list context "changed_files",
        match_file_content o f trigger.content_patterns ≠ [])
    ∧ ((∀ f ∈ get_str_list context "changed_files",
          match_file_content o f trigger.content_patterns = []) →
        match_files_changed_trigger o trigger context = ([], [])) := by
  have hact : trigger.is_active = true := by
    unfold FilesChangedTrigger.is_active
    simp [hc]
  simp only [match_files_changed_trigger, hact, Bool.not_true, Bool.false_eq_true,
    if_false]
  by_cases hcf : (get_str_list context "changed_files").isEmpty = true
  · exfalso
    rw [List.isEmpty_iff] at hcf
    rw [hcf] at hp
    exact hp rfl
  · rw [if_neg hcf]
    have hguard : ((!(files_path_loop o trigger
          (get_str_list context "changed_files")).1.isEmpty)
        && !trigger.content_patterns.isEmpty) = true := by
      simp [hp, hc]
    rw [if_pos hguard]
    have hsnd := files_content_loop_snd o trigger (get_str_list context "changed_files")
      (files_path_loop o trigger (get_str_list context "changed_files")).1
    by_cases hany : (get_str_list context "changed_files").any
        (fun f => !(match_file_content o f trigger.content_patterns).isEmpty) = true
    · have hcr2 : (files_content_loop o trigger (get_str_list context "changed_files")
          (files_path_loop o trigger (get_str_list context "changed_files")).1).2
          = true := by
        rw [hsnd, hany]
      rw [hcr2]
      simp only [Bool.not_true, Bool.false_eq_true, if_false]
      constructor
      · apply iff_of_true
        · obtain ⟨extra, hx⟩ := files_content_loop_fst_prefix o trigger
            (get_str_list context "changed_files")
            (files_path_loop o trigger (get_str_list context "changed_files")).1
          rw [hx]
          intro hnil
          exact hp (List.append_eq_nil.mp hnil).1
        · rw [List.any_eq_true] at hany
          obtain ⟨f, hf, hmf⟩ := hany
          refine ⟨f, hf, ?_⟩
          simpa using hmf
      · intro hnone
        exfalso
        rw [List.any_eq_true] at hany
        obtain ⟨f, hf, hmf⟩ := hany
        rw [hnone f hf] at hmf
        simp at hmf
    · have hcr2 : (files_content_loop o trigger (get_str_list context "changed_files")
          (files_path_loop o trigger (get_str_list context "changed_files")).1).2
          = false := by
        rw [hsnd]
        exact Bool.of_not_eq_true hany
      rw [hcr2]
      simp only [Bool.not_false, if_true]
      constructor
      · apply iff_of_false
        · simp
        · intro hex
          apply hany
          rw [List.any_eq_true]
          obtain ⟨f, hf, hmf⟩ := hex
          refine ⟨f, hf, ?_⟩
          simpa using hmf
      · intro _
        trivial

set_option maxRecDepth 8192 in
/-- Counterexample to C3 as stated: with content patterns present, the code
keeps the result when a changed file that did NOT path-match has matching
content — here the only path-matching file is `alpha.md`, whose content does
not match, yet the trigger result is non-empty. -/
theorem spec_c3_counterexample :
    (match_files_changed_trigger o_c3 t_c3 ctx_c3).1 ≠ []
    ∧ ∀ f ∈ path_matching_files o_c3 t_c3 (get_str_list ctx_c3 "changed_files"),
        match_file_content o_c3 f t_c3.content_patterns = [] := by
  decide

set_option maxRecDepth 8192 in
/-- Witness for C3 (amended) at the concrete oracle and trigger. -/
theorem spec_c3_amended_witness :
    (match_files_changed_trigger o_c3 t_c3 ctx_c3).1 ≠ [] :=
  (spec_c3_amended o_c3 t_c3 ctx_c3 (by decide) (by decide)).1.mpr
    ⟨"beta.md", by decide, by decide⟩

theorem files_path_go_no_patterns (o : Oracle) (trigger : FilesChangedTrigger)
    (hp : trigger.path_patterns = []) (files : List String)
    (acc : List String × List (String × String)) :
    files_path_go o trigger acc files = acc := by
  induction files generalizing acc with
  | nil => rfl
  | cons f rest ih =>
    simp only [files_path_go, hp, List.foldl_nil]
    exact ih acc

/-- C10: a FilesChangedTrigger with only content patterns is reported active
(so it counts in the group AND), yet `match_files_changed_trigger` returns an
empty result for every context, so a group containing such a trigger can never
match. -/
theorem spec_c10 (o : Oracle) (group : TriggerGroup) (context : HookContext)
    (hp : group.files_changed.path_patterns = [])
    (hc : group.files_changed.content_patterns ≠ []) :
    group.files_changed.is_active = true
    ∧ match_files_changed_trigger o group.files_changed context = ([], [])
    ∧ match_trigger_group o group context = none := by
  have hact : group.files_changed.is_active = true := by
    unfold FilesChangedTrigger.is_active
    simp [hc]
  have hempty : match_files_changed_trigger o group.files_changed context = ([], []) := by
    simp only [match_files_changed_trigger, hact, Bool.not_true, Bool.false_eq_true,
      if_false]
    by_cases hcf : (get_str_list context "changed_files").isEmpty = true
    · rw [if_pos hcf]
    · rw [if_neg hcf]
      have hloop : files_path_loop o group.files_changed
          (get_str_list context "changed_files") = ([], []) :=
        files_path_go_no_patterns o group.files_changed hp
          (get_str_list context "changed_files") ([], [])
      rw [hloop]
      simp
  refine ⟨hact, hempty, ?_⟩
  cases hmm : match_trigger_group o group context with
  | none => rfl
  | some r =>
    exfalso
    have hsome : (group_scan (group_members o group context)).isSome = true := by
      have : (match_trigger_group o group context).isSome = true := by rw [hmm]; rfl
      exact this
    have h3 := (group_scan_isSome_iff _).mp hsome
    have hmem : (⟨group.files_changed.is_active,
        (match_files_changed_trigger o group.files_changed context).1,
        (match_files_changed_trigger o group.files_changed context).2⟩ : MemberResult)
        ∈ group_members o group context := by
      simp [group_members]
    have h4 := h3.2 _ hmem hact
    rw [hempty] at h4
    exact h4 rfl

/-- Witness for C10 at a concrete content-only trigger. -/
theorem spec_c10_witness :
    g_c10.files_changed.is_active = true
    ∧ match_files_changed_trigger o_triv g_c10.files_changed [] = ([], [])
    ∧ match_trigger_group o_triv g_c10 [] = none :=
  spec_c10 o_triv g_c10 [] rfl (by decide)

theorem string_eq_empty_of_length (s : String) (h : s.length = 0) : s = "" := by
  cases s with
  | mk data =>
    simp [String.length] at h
    simp [h]

theorem foldl_join_length (sep : String) (l : List String) (a : String) :
    a.length ≤ (l.foldl (fun acc s => acc ++ sep ++ s) a).length := by
  induction l generalizing a with
  | nil => simp
  | cons s rest ih =>
    simp only [List.foldl_cons]
    refine le_trans ?_ (ih (a ++ sep ++ s))
    rw [String.length_append, String.length_append]
    omega

theorem join_with_head_ne (a : String) (l : List String) (ha : a ≠ "") :
    join_with "\n" (a :: l) ≠ "" := by
  simp only [join_with]
  intro h
  have hlen := foldl_join_length "\n" l a
  rw [h, String.length_empty] at hlen
  exact ha (string_eq_empty_of_length a (Nat.le_zero.mp hlen))

theorem subagent_first_block_eq (ms : List Match) :
    subagent_first_block ms = ms.findSome? block_reason_of := by
  induction ms with
  | nil => rfl
  | cons m rest ih =>
    cases ha : m.action
    case block reason =>
      have hb : block_reason_of m = some reason := by
        simp [block_reason_of, ha]
      rw [List.findSome?_cons, hb]
      simp [subagent_first_block, ha]
    all_goals
      have hb : block_reason_of m = none := by
        simp [block_reason_of, ha]
      rw [List.findSome?_cons, hb]
      simp [subagent_first_block, ha, ih]

theorem priority_cases (p : Priority) :
    p = Priority.high ∨ p = Priority.medium ∨ p = Priority.low := by
  cases p
  · exact Or.inl rfl
  · exact Or.inr (Or.inl rfl)
  · exact Or.inr (Or.inr rfl)

theorem is_suggest_skill_match_iff (m : Match) :
    is_suggest_skill_match m = true
      ↔ ∃ skill reason, m.action = Action.suggest_skill skill reason := by
  unfold is_suggest_skill_match
  cases ha : m.action
  all_goals simp

theorem format_skill_suggestions_ne_empty (ms : List Match)
    (h : ∃ m ∈ ms, is_suggest_skill_match m = true) :
    format_skill_suggestions ms ≠ "" := by
  simp only [format_skill_suggestions]
  split_ifs with hg
  · exfalso
    obtain ⟨m, hm, hsug⟩ := h
    simp only [Bool.and_eq_true, List.isEmpty_iff] at hg
    obtain ⟨⟨hh, hmed⟩, hlow⟩ := hg
    obtain ⟨skill, reason, ha⟩ := (is_suggest_skill_match_iff m).mp hsug
    rcases priority_cases m.priority with hpr | hpr | hpr
    · have hmm := List.filterMap_eq_nil_iff.mp hh m hm
      simp [ha, hpr] at hmm
    · have hmm := List.filterMap_eq_nil_iff.mp hmed m hm
      simp [ha, hpr] at hmm
    · have hmm := List.filterMap_eq_nil_iff.mp hlow m hm
      simp [ha, hpr] at hmm
  all_goals
    simp only [List.cons_append, List.nil_append, List.append_assoc]
    exact join_with_head_ne _ _ (by decide)

theorem high_suggest_filterMap_nil (ms : List Match)
    (h : ∀ m ∈ ms, is_suggest_skill_match m = false) :
    ms.filterMap (fun m =>
      match m.action, m.priority with
      | Action.suggest_skill skill reason, Priority.high => some (skill, reason)
      | _, _ => none) = [] := by
  induction ms with
  | nil => rfl
  | cons m rest ih =>
    have hm := h m (List.mem_cons_self m rest)
    have hm_none : (match m.action, m.priority with
        | Action.suggest_skill skill reason, Priority.high => some (skill, reason)
        | _, _ => none) = (none : Option (String × String)) := by
      unfold is_suggest_skill_match at hm
      cases ha : m.action
      case suggest_skill skill reason =>
        rw [ha] at hm
        simp at hm
      all_goals cases m.priority
      all_goals rfl
    rw [List.filterMap_cons]
    simp only [hm_none]
    exact ih (fun x hx => h x (List.mem_cons_of_mem m hx))

theorem medium_suggest_filterMap_nil (ms : List Match)
    (h : ∀ m ∈ ms, is_suggest_skill_match m = false) :
    ms.filterMap (fun m =>
      match m.action, m.priority with
      | Action.suggest_skill skill reason, Priority.medium => some (skill, reason)
      | _, _ => none) = [] := by
  induction ms with
  | nil => rfl
  | cons m rest ih =>
    have hm := h m (List.mem_cons_self m rest)
    have hm_none : (match m.action, m.priority with
        | Action.suggest_skill skill reason, Priority.medium => some (skill, reason)
        | _, _ => none) = (none : Option (String × String)) := by
      unfold is_suggest_skill_match at hm
      cases ha : m.action
      case suggest_skill skill reason =>
        rw [ha] at hm
        simp at hm
      all_goals cases m.priority
      all_goals rfl
    rw [List.filterMap_cons]
    simp only [hm_none]
    exact ih (fun x hx => h x (List.mem_cons_of_mem m hx))

theorem low_suggest_filterMap_nil (ms : List Match)
    (h : ∀ m ∈ ms, is_suggest_skill_match m = false) :
    ms.filterMap (fun m =>
      match m.action, m.priority with
      | Action.suggest_skill skill reason, Priority.low => some (skill, reason)
      | _, _ => none) = [] := by
  induction ms with
  | nil => rfl
  | cons m rest ih =>
    have hm := h m (List.mem_cons_self m rest)
    have hm_none : (match m.action, m.priority with
        | Action.suggest_skill skill reason, Priority.low => some (skill, reason)
        | _, _ => none) = (none : Option (String × String)) := by
      unfold is_suggest_skill_match at hm
      cases ha : m.action
      case suggest_skill skill reason =>
        rw [ha] at hm
        simp at hm
      all_goals cases m.priority
      all_goals rfl
    rw [List.filterMap_cons]
    simp only [hm_none]
    exact ih (fun x hx => h x (List.mem_cons_of_mem m hx))

theorem format_skill_suggestions_empty (ms : List Match)
    (h : ∀ m ∈ ms, is_suggest_skill_match m = false) :
    format_skill_suggestions ms = "" := by
  simp only [format_skill_suggestions, high_suggest_filterMap_nil ms h,
    medium_suggest_filterMap_nil ms h, low_suggest_filterMap_nil ms h]
  rfl

/-- C6: for a SubagentStop match list, a Block match takes absolute precedence
(the output is exactly the blocked response with the first Block's reason and
every other match is ignored); with no Block but some SuggestSkill match, the
grouped-priority skill envelope is emitted; with neither, nothing is
emitted. -/
theorem spec_c6 (ms : List Match) :
    (∀ reason, ms.findSome? block_reason_of = some reason →
      format_subagent_stop_output ms = some (SubagentOutput.blocked reason))
    ∧ (ms.findSome? block_reason_of = none →
        ((∃ m ∈ ms, is_suggest_skill_match m = true) →
          format_subagent_stop_output ms
            = some (SubagentOutput.envelope "SubagentStop"
                (format_skill_suggestions ms)))
        ∧ ((∀ m ∈ ms, is_suggest_skill_match m = false) →
          format_subagent_stop_output ms = none)) := by
  refine ⟨?_, fun hnone => ⟨?_, ?_⟩⟩
  · intro reason hr
    simp only [format_subagent_stop_output, subagent_first_block_eq, hr]
  · intro hsug
    have hne := format_skill_suggestions_ne_empty ms hsug
    have hemp : (format_skill_suggestions ms).isEmpty = false := by
      cases hh : (format_skill_suggestions ms).isEmpty
      · rfl
      · exact absurd ((String.isEmpty_iff _).mp hh) hne
    simp [format_subagent_stop_output, subagent_first_block_eq, hnone, hemp]
  · intro hnosug
    have he := format_skill_suggestions_empty ms hnosug
    have hemp : ("" : String).isEmpty = true := rfl
    simp [format_subagent_stop_output, subagent_first_block_eq, hnone, he, hemp]

/-- Witness for C6: with both a SuggestSkill and a Block match present, the
output is exactly the blocked response. -/
theorem spec_c6_witness :
    format_subagent_stop_output ms_c6 = some (SubagentOutput.blocked "fix tests") :=
  (spec_c6 ms_c6).1 "fix tests" (by decide)

theorem high_entries_eq (ms : List Match) :
    ms.filterMap (fun m =>
      match m.action, m.priority with
      | .suggest_skill skill reason, .high => some (skill, reason)
      | _, _ => none) = high_skill_entries ms := by
  induction ms with
  | nil => rfl
  | cons m rest ih =>
    rw [List.filterMap_cons]
    obtain ⟨skill, reason, ha⟩ | ha :
        (∃ skill reason, m.action = Action.suggest_skill skill reason)
          ∨ is_suggest_skill_match m = false := by
      cases hx : is_suggest_skill_match m
      · exact Or.inr rfl
      · exact Or.inl ((is_suggest_skill_match_iff m).mp hx)
    · have hsug : is_suggest_skill_match m = true := by
        simp [is_suggest_skill_match, ha]
      rcases priority_cases m.priority with hpr | hpr | hpr
      all_goals
        simp [ha, hpr, ih, high_skill_entries, List.filter_cons, hsug,
          skill_reason_of]
    · have hnone : (match m.action, m.priority with
          | Action.suggest_skill skill reason, Priority.high => some (skill, reason)
          | _, _ => none) = (none : Option (String × String)) := by
        unfold is_suggest_skill_match at ha
        rcases priority_cases m.priority with hpr | hpr | hpr
        all_goals rw [hpr]
        all_goals cases hact : m.action
        all_goals rw [hact] at ha
        all_goals simp at ha
      simp [hnone, ih, high_skill_entries, List.filter_cons, ha]

theorem others_entries_eq (ms : List Match) :
    ms.filterMap (fun m =>
      match m.action, m.priority with
      | .suggest_skill _ _, .high => none
      | .suggest_skill skill reason, _ => some (skill, reason)
      | _, _ => none) = other_skill_entries ms := by
  induction ms with
  | nil => rfl
  | cons m rest ih =>
    rw [List.filterMap_cons]
    obtain ⟨skill, reason, ha⟩ | ha :
        (∃ skill reason, m.action = Action.suggest_skill skill reason)
          ∨ is_suggest_skill_match m = false := by
      cases hx : is_suggest_skill_match m
      · exact Or.inr rfl
      · exact Or.inl ((is_suggest_skill_match_iff m).mp hx)
    · have hsug : is_suggest_skill_match m = true := by
        simp [is_suggest_skill_match, ha]
      rcases priority_cases m.priority with hpr | hpr | hpr
      all_goals
        simp [ha, hpr, ih, other_skill_entries, List.filter_cons, hsug,
          skill_reason_of]
    · have hnone : (match m.action, m.priority with
          | Action.suggest_skill _ _, Priority.high => none
          | Action.suggest_skill skill reason, _ => some (skill, reason)
          | _, _ => none) = (none : Option (String × String)) := by
        unfold is_suggest_skill_match at ha
        rcases priority_cases m.priority with hpr | hpr | hpr
        all_goals rw [hpr]
        all_goals cases hact : m.action
        all_goals rw [hact] at ha
        all_goals simp at ha
      simp [hnone, ih, other_skill_entries, List.filter_cons, ha]

theorem reminder_high_foldl (entries : List (String × String)) (init : List String) :
    entries.foldl (fun lines e =>
      let display_reason := if e.2.isEmpty then "Use " ++ e.1 else e.2
      lines ++ ["  - " ++ e.1 ++ ": " ++ display_reason]) init
    = init ++ entries.map reminder_line_with_reason := by
  induction entries generalizing init with
  | nil => simp
  | cons e rest ih =>
    simp only [List.foldl_cons, List.map_cons]
    rw [ih]
    simp [reminder_line_with_reason, effective_reason]

theorem reminder_plain_foldl (entries : List (String × String)) (init : List String) :
    entries.foldl (fun lines e => lines ++ ["  - " ++ e.1]) init
      = init ++ entries.map reminder_line_plain := by
  induction entries generalizing init with
  | nil => simp
  | cons e rest ih =>
    simp only [List.foldl_cons, List.map_cons]
    rw [ih]
    simp [reminder_line_plain]

/-- C7 (amended): `format_reminder` considers only SuggestSkill matches —
Remind matches are ignored.  If any high-priority SuggestSkill matches exist,
each is listed with its effective reason (the configured reason, or the
`Use {skill}` fallback); otherwise at most the first two non-high SuggestSkill
matches (medium and low together, in input order) are listed without reasons;
with no SuggestSkill matches nothing is emitted. -/
theorem spec_c7_amended (ms : List Match) :
    (high_skill_entries ms ≠ [] →
      format_reminder ms = join_with "\n" (["Skill Reminder", "", "Consider:"]
        ++ (high_skill_entries ms).map reminder_line_with_reason))
    ∧ (high_skill_entries ms = [] → other_skill_entries ms ≠ [] →
      format_reminder ms = join_with "\n" (["Skill Reminder", "", "Consider:"]
        ++ ((other_skill_entries ms).take 2).map reminder_line_plain))
    ∧ (high_skill_entries ms = [] → other_skill_entries ms = [] →
      format_reminder ms = "") := by
  refine ⟨?_, ?_, ?_⟩
  · intro hh
    have hhe : (high_skill_entries ms).isEmpty = false := by
      cases hx : (high_skill_entries ms).isEmpty
      · rfl
      · exact absurd (List.isEmpty_iff.mp hx) hh
    simp only [format_reminder, high_entries_eq, others_entries_eq]
    rw [if_neg (by simp [hhe]), if_pos (by simp [hhe])]
    rw [reminder_high_foldl]
  · intro hh ho
    have hoe : (other_skill_entries ms).isEmpty = false := by
      cases hx : (other_skill_entries ms).isEmpty
      · rfl
      · exact absurd (List.isEmpty_iff.mp hx) ho
    simp only [format_reminder, high_entries_eq, others_entries_eq]
    rw [if_neg (by simp [hoe]), if_neg (by simp [hh])]
    rw [reminder_plain_foldl]
  · intro hh ho
    simp only [format_reminder, high_entries_eq, others_entries_eq]
    rw [if_pos (by simp [hh, ho])]

/-- Counterexample to C7 as stated: a high-priority Remind match is present,
but `format_reminder` emits nothing — Remind matches are never listed. -/
theorem spec_c7_counterexample :
    (∃ m ∈ ms_c7, m.priority = Priority.high
      ∧ ∃ message, m.action = Action.remind message)
    ∧ format_reminder ms_c7 = "" := by
  constructor
  · refine ⟨⟨"tdd_reminder", Priority.high, Action.remind "use the tdd skill", [], []⟩,
      ?_, rfl, "use the tdd skill", rfl⟩
    decide
  · decide

/-- Witness for C7 (amended) at a concrete high-priority SuggestSkill match
with an empty configured reason. -/
theorem spec_c7_amended_witness :
    format_reminder ms_c7w = join_with "\n" (["Skill Reminder", "", "Consider:"]
      ++ (high_skill_entries ms_c7w).map reminder_line_with_reason) :=
  (spec_c7_amended ms_c7w).1 (by decide)

theorem assoc_get_assoc_set_self {α β : Type} [DecidableEq α]
    (l : List (α × β)) (k : α) (v : β) :
    assoc_get (assoc_set l k v) k = some v := by
  induction l with
  | nil => simp [assoc_set, assoc_get]
  | cons kv rest ih =>
    by_cases hk : kv.1 = k
    · simp [assoc_set, assoc_get, hk]
    · simp [assoc_set, assoc_get, hk, ih]

/-- C8: executing a SetState action is replay-idempotent: when the target key
already exists for the context's session the store is left entirely unchanged
(the write is existence-checked and skipped), and executing the identical
SetState match twice equals executing it once. -/
theorem spec_c8 (σ : StateStore) (context : HookContext) (n : String) (p : Priority)
    (mp : List String) (caps : List (String × String)) (key value_from : String) :
    (state_exists σ (get_str context "session_id") key = true →
      execute_actions [⟨n, p, Action.set_state key value_from, mp, caps⟩] context σ = σ)
    ∧ execute_actions [⟨n, p, Action.set_state key value_from, mp, caps⟩] context
        (execute_actions [⟨n, p, Action.set_state key value_from, mp, caps⟩] context σ)
      = execute_actions [⟨n, p, Action.set_state key value_from, mp, caps⟩] context σ := by
  by_cases hsid : (get_str context "session_id").isEmpty = true
  · constructor
    · intro _
      simp [execute_actions, hsid]
    · simp [execute_actions, hsid]
  · constructor
    · intro hex
      simp [execute_actions, hsid, hex]
    · by_cases hex : state_exists σ (get_str context "session_id") key = true
      · simp [execute_actions, hsid, hex]
      · simp only [Bool.not_eq_true] at hex
        cases hev : extract_value value_from caps with
        | none => simp [execute_actions, hsid, hex, hev]
        | some v =>
          have hex2 : state_exists (state_set σ (get_str context "session_id") key v)
              (get_str context "session_id") key = true := by
            unfold state_exists state_get state_set
            rw [assoc_get_assoc_set_self]
            rfl
          simp [execute_actions, hsid, hex, hev, hex2]

/-- Witness for C8 at a concrete store in which the key already exists. -/
theorem spec_c8_witness :
    execute_actions
        [⟨"set_focus", Priority.medium, Action.set_state "focus" "captured.spec_id",
          [], []⟩] ctx_w8 sigma_w8
      = sigma_w8 :=
  (spec_c8 sigma_w8 ctx_w8 "set_focus" Priority.medium [] [] "focus"
    "captured.spec_id").1 (by decide)

end Dignity
